import Mathlib

/-!
Verification development for the Xi-cam.core fragment: a shallow embedding of
`xicam/core/msg/__init__.py` (logging / notification facility) and
`xicam/core/paths.py` (per-platform path resolution), together with theorems
settling the behavioural properties stated for them.

Conventions of the embedding:
* Python integers are `Int`; strings are `String`.
* A Python function that can raise returns its mutated state together with an
  `Except PyError Unit` outcome (global mutations performed before a raise are
  kept, as in Python).
* The logging sink is modelled as the list of records handed to `logger.log`
  (one per accepted call); console/file handler fan-out is not observable here.
* GUI widget method invocations are recorded as `Effect`s, each tagged with
  whether the source dispatched it directly or marshalled it onto the GUI
  thread via `threads.invoke_in_main_thread`.
-/

/-- Python exception classes raised by the embedded code. -/
inductive PyError
  | keyError
  | valueError
  | typeError
  | attributeError
  | fileExistsError
  | permissionError
  deriving DecidableEq, Repr

/-- msg line 50: `DEBUG = logging.DEBUG` (10). -/
def DEBUG : Int := 10

/-- msg line 51: `INFO = logging.INFO` (20). -/
def INFO : Int := 20

/-- msg line 52: `WARNING = logging.WARNING` (30). -/
def WARNING : Int := 30

/-- msg line 53: `ERROR = logging.ERROR` (40). -/
def ERROR : Int := 40

/-- msg line 54: `CRITICAL = logging.CRITICAL` (50). -/
def CRITICAL : Int := 50

/-- msg line 56: the `levels` dict mapping each recognized level integer to its
display name. -/
def levels : List (Int × String) :=
  [(DEBUG, "DEBUG"), (INFO, "INFO"), (WARNING, "WARNING"), (ERROR, "ERROR"),
   (CRITICAL, "CRITICAL")]

/-- msg lines 69-78: the `_thread_count` counter and the `threadIds`
defaultdict, modelled as an association list from thread identity to the
assigned display integer. -/
structure ThreadRegistry where
  thread_count : Nat
  table : List (Nat × Nat)
  deriving DecidableEq, Repr

/-- msg line 78: `threadIds[ident]` on a `defaultdict(_increment_thread)` --
a hit returns the stored label; a miss runs the factory, which increments
`_thread_count` and stores the new value for `ident`. -/
def lookupThreadId (r : ThreadRegistry) (ident : Nat) : Nat × ThreadRegistry :=
  match r.table.lookup ident with
  | some l => (l, r)
  | none =>
    (r.thread_count + 1, ⟨r.thread_count + 1, (ident, r.thread_count + 1) :: r.table⟩)

/-- The identity of the thread performing a `logMessage` call: the process's
designated main thread, or a worker thread with a numeric identity
(`threading.get_ident()`). -/
inductive ThreadCall
  | main
  | worker (ident : Nat)
  deriving DecidableEq, Repr

/-- msg lines 236-239: the thread label is the sentinel `"M"` when
`threading.current_thread() is threading.main_thread()`, otherwise
`str(threadIds[threading.get_ident()])`. -/
def threadLabel (r : ThreadRegistry) : ThreadCall → String × ThreadRegistry
  | ThreadCall.main => ("M", r)
  | ThreadCall.worker id =>
    let p := lookupThreadId r id
    (toString p.1, p.2)

/-- One record handed to `logger.log`: the level integer and the formatted
line. -/
structure LogRecord where
  level : Int
  line : String
  deriving DecidableEq, Repr

/-- The process-wide logging state read and mutated by `logMessage`:
per-channel severity thresholds (`logging.getLogger(name).setLevel`), the sink
of emitted records, and the thread registry. -/
structure LogState where
  loggerLevels : List (String × Int)
  sink : List LogRecord
  registry : ThreadRegistry
  deriving Repr

/-- `logging.getLogger(name).setLevel(lvl)`: record the channel's threshold
(the most recent setting shadows older ones). -/
def setLoggerLevel (st : LogState) (name : String) (lvl : Int) : LogState :=
  { st with loggerLevels := (name, lvl) :: st.loggerLevels }

/-- A channel's effective severity threshold; an unconfigured channel inherits
the root logger's DEBUG threshold installed by `logging.basicConfig`
(msg line 29). -/
def effectiveLevel (st : LogState) (name : String) : Int :=
  (st.loggerLevels.lookup name).getD DEBUG

/-- `logger.log(level, msg)`: the record is emitted iff `level` passes the
channel's effective threshold (`Logger.isEnabledFor`). -/
def loggerLog (st : LogState) (name : String) (level : Int) (msg : String) : LogState :=
  if effectiveLevel st name ≤ level then
    { st with sink := st.sink ++ [⟨level, msg⟩] }
  else st

/-- msg lines 216-217: `if not loggername: loggername = inspect.stack()[1][3]`.
`None` and the empty string are both falsy, so either falls back to the
caller's function name. -/
def resolveLoggerName (loggername : Option String) (callerName : String) : String :=
  match loggername with
  | none => callerName
  | some n => if n = "" then callerName else n

/-- msg line 213: `s = " ".join(map(str, args))`. -/
def joinSpace (args : List String) : String := String.intercalate " " args

/-- msg line 242: the f-string
`f"{timestamp} - {loggername} - {levelname} - {thread} - {s}"`. -/
def mkLine (timestamp loggername levelname thread s : String) : String :=
  timestamp ++ " - " ++ loggername ++ " - " ++ levelname ++ " - " ++ thread ++ " - " ++ s

/-- Outcome of a `logMessage` call: the state after the call (mutations made
before a raise persist, as in Python) and the raised exception, if any. -/
structure LogResult where
  state : LogState
  result : Except PyError Unit
  deriving Repr

/-- Embedding of `logMessage` (msg lines 190-242) for integer `level`
arguments. `callerName` stands for `inspect.stack()[1][3]`, `now` for
`time.asctime()`, and `cur` for the calling thread's identity.

Note on lines 222-226: `stdch.setLevel(level)` calls CPython's
`logging._checkLevel`, which accepts every `int` unconditionally (it only
raises for unknown *string* levels), so for an integer level no `ValueError`
is raised and the `except ValueError` escalation branch is dead code; control
reaches `levels[level]` (line 234), which raises `KeyError` when `level` is
not one of the five recognized integers. (Had the branch run, its
`logger.log("Unrecognized logger level for following message...", level)`
passes the string where `Logger.log` expects the integer level and would
itself raise `TypeError`.) -/
def logMessage (st : LogState) (args : List String) (level : Int)
    (loggername : Option String) (callerName : String) (timestamp : Option String)
    (now : String) (cur : ThreadCall) : LogResult :=
  let s := joinSpace args
  let name := resolveLoggerName loggername callerName
  let st := setLoggerLevel st name DEBUG
  let ts := timestamp.getD now
  match levels.lookup level with
  | none => ⟨st, Except.error PyError.keyError⟩
  | some levelname =>
    let p := threadLabel st.registry cur
    let st := { st with registry := p.2 }
    ⟨loggerLog st name level (mkLine ts name levelname p.1 s), Except.ok ()⟩

/-- The arguments of one `logMessage` call in a call sequence. -/
structure LMCall where
  args : List String
  level : Int
  loggername : Option String
  callerName : String
  timestamp : Option String
  now : String
  thread : ThreadCall
  deriving Repr

/-- Run a sequence of `logMessage` calls; a raised exception aborts the
sequence (it would propagate to the caller). -/
def runLog (st : LogState) : List LMCall → LogResult
  | [] => ⟨st, Except.ok ()⟩
  | c :: cs =>
    let r := logMessage st c.args c.level c.loggername c.callerName c.timestamp c.now c.thread
    match r.result with
    | Except.ok _ => runLog r.state cs
    | Except.error e => ⟨r.state, Except.error e⟩

/-- The three `QSystemTrayIcon` message icon classes. -/
inductive Icon
  | information
  | warning
  | critical
  deriving DecidableEq, Repr

/-- How a widget method was invoked: directly on the calling thread, or
marshalled onto the GUI thread via `threads.invoke_in_main_thread`. -/
inductive CallMode
  | direct
  | marshalled
  deriving DecidableEq, Repr

/-- A method invocation on one of the registered GUI widgets. -/
inductive WidgetOp
  | progressShow
  | progressSetRange (lo hi : Int)
  | progressSetValue (v : Int)
  | progressHide
  | statusShowMessage (text : String) (ms : Int)
  | statusClear
  | trayShow
  | trayShowMessage (title text : String) (icon : Icon) (timeout : Int)
  | trayScheduleHide (timeout : Int)
  deriving DecidableEq, Repr

/-- One recorded widget invocation with its dispatch mode. -/
structure Effect where
  op : WidgetOp
  mode : CallMode
  deriving DecidableEq, Repr

/-- msg lines 81-100: `showProgress` -- all three widget calls are marshalled
via `threads.invoke_in_main_thread`; no-op when no progress bar is
registered. -/
def showProgress (progressbar : Bool) (value minval maxval : Int) : List Effect :=
  if progressbar then
    [⟨WidgetOp.progressShow, CallMode.marshalled⟩,
     ⟨WidgetOp.progressSetRange minval maxval, CallMode.marshalled⟩,
     ⟨WidgetOp.progressSetValue value, CallMode.marshalled⟩]
  else []

/-- msg lines 103-112: `showBusy` -- both widget calls marshalled. -/
def showBusy (progressbar : Bool) : List Effect :=
  if progressbar then
    [⟨WidgetOp.progressShow, CallMode.marshalled⟩,
     ⟨WidgetOp.progressSetRange 0 0, CallMode.marshalled⟩]
  else []

/-- msg lines 115-122: `hideBusy` -- `progressbar.hide()` and
`progressbar.setRange(0, 100)` are called directly on the calling thread (no
`invoke_in_main_thread`). -/
def hideBusy (progressbar : Bool) : List Effect :=
  if progressbar then
    [⟨WidgetOp.progressHide, CallMode.direct⟩,
     ⟨WidgetOp.progressSetRange 0 100, CallMode.direct⟩]
  else []

/-- Outcome of a facility operation that both drives widgets and logs. -/
structure NotifyResult where
  effects : List Effect
  state : LogState
  result : Except PyError Unit
  deriving Repr

/-- Embedding of `notifyMessage` (msg lines 130-164). With a tray icon
registered the icon is selected by three successive `if` statements; a `None`
icon raises `ValueError("Invalid message level.")` before any widget call.
`trayicon.show()` is a direct call; the balloon message and the delayed hide
are marshalled. The message text is `"".join(args)` (no separator). The final
`logMessage(*args)` passes only the parts: level, loggername and timestamp are
left at their defaults, and the caller recorded by `inspect` is
`notifyMessage`. -/
def notifyMessage (st : LogState) (tray : Bool) (args : List String) (timeout : Int)
    (title : String) (level : Int) (now : String) (cur : ThreadCall) : NotifyResult :=
  if tray then
    let icon0 : Option Icon := none
    let icon1 := if level = INFO ∨ level = DEBUG then some Icon.information else icon0
    let icon2 := if level = WARNING then some Icon.warning else icon1
    let icon3 := if level = ERROR ∨ level = CRITICAL then some Icon.critical else icon2
    match icon3 with
    | none => ⟨[], st, Except.error PyError.valueError⟩
    | some icon =>
      let effs := [⟨WidgetOp.trayShow, CallMode.direct⟩,
                   ⟨WidgetOp.trayShowMessage title (String.join args) icon timeout,
                    CallMode.marshalled⟩,
                   ⟨WidgetOp.trayScheduleHide timeout, CallMode.marshalled⟩]
      let r := logMessage st args INFO none "notifyMessage" none now cur
      ⟨effs, r.state, r.result⟩
  else
    let r := logMessage st args INFO none "notifyMessage" none now cur
    ⟨[], r.state, r.result⟩

/-- msg lines 183-185: the statusbar invocation of `showMessage` --
`statusbar.showMessage(s, timeout * 1000)` is a direct call on the calling
thread. -/
def showMessageEffects (statusbar : Bool) (args : List String) (timeout : Int) :
    List Effect :=
  if statusbar then
    [⟨WidgetOp.statusShowMessage (joinSpace args) (timeout * 1000), CallMode.direct⟩]
  else []

/-- Embedding of `showMessage` (msg lines 167-187): direct statusbar call when
registered, then `logMessage(*args, **kwargs)`. -/
def showMessage (st : LogState) (statusbar : Bool) (args : List String) (timeout : Int)
    (level : Int) (loggername : Option String) (timestamp : Option String)
    (now : String) (cur : ThreadCall) : NotifyResult :=
  let effs := showMessageEffects statusbar args timeout
  let r := logMessage st args level loggername "showMessage" timestamp now cur
  ⟨effs, r.state, r.result⟩

/-- Outcome of a pure widget operation. -/
structure UIResult where
  effects : List Effect
  result : Except PyError Unit
  deriving Repr

/-- Embedding of `clearMessage` (msg lines 251-255): `statusbar.clearMessage()`
unguarded -- with no statusbar registered the global is `None` and the
attribute access raises `AttributeError`; with one registered, a single direct
`clearMessage` invocation. -/
def clearMessage (statusbar : Bool) : UIResult :=
  if statusbar then
    ⟨[⟨WidgetOp.statusClear, CallMode.direct⟩], Except.ok ()⟩
  else
    ⟨[], Except.error PyError.attributeError⟩

/-- A value a module-level name of `paths.py` can hold: the imported `appdirs`
function, or the string it was rebound to. -/
inductive PyVal
  | func (f : String → String)
  | str (s : String)

/-- Calling a value with `appname='xicam'`: calling a string raises
`TypeError` (`'str' object is not callable`). -/
def callVal : PyVal → String → Except PyError String
  | PyVal.func f, a => Except.ok (f a)
  | PyVal.str _, _ => Except.error PyError.typeError

/-- The six directory paths computed by `paths.py`. -/
structure PathSet where
  user_cache_dir : String
  site_config_dir : String
  user_config_dir : String
  user_dev_dir : String
  user_plugin_dir : String
  site_plugin_dir : String
  deriving DecidableEq, Repr

/-- `os.path.join` on two components. -/
def joinPath (a b : String) : String := a ++ "/" ++ b

/-- Embedding of the module body of `paths.py` (lines 1-14), faithful to its
name rebinding: line 1 imports `user_config_dir`, `site_config_dir`,
`user_cache_dir` as functions (parameters `uconfig`, `sconfig`, `ucache`);
lines 5-7 rebind the same three names to the result strings; lines 10-14 then
call those rebound names again. `home` stands for `os.path.expanduser('~')`
and `op_sys` for `platform.system()`. -/
def paths_module (ucache sconfig uconfig : String → String) (home op_sys : String) :
    Except PyError PathSet := do
  let user_cache_dir : PyVal := PyVal.func ucache
  let site_config_dir : PyVal := PyVal.func sconfig
  let user_config_dir : PyVal := PyVal.func uconfig
  let ucache_s ← callVal user_cache_dir "xicam"
  let user_cache_dir : PyVal := PyVal.str ucache_s
  let sconfig_s ← callVal site_config_dir "xicam"
  let site_config_dir : PyVal := PyVal.str sconfig_s
  let uconfig_s ← callVal user_config_dir "xicam"
  let user_config_dir : PyVal := PyVal.str uconfig_s
  let user_dev_dir := joinPath home "Xi-cam/plugins"
  let user_plugin_dir ←
    if op_sys = "Darwin" then
      (callVal user_cache_dir "xicam").map (fun s => joinPath s "plugins")
    else
      (callVal user_config_dir "xicam").map (fun s => joinPath s "plugins")
  let site_plugin_dir ← (callVal site_config_dir "xicam").map (fun s => joinPath s "plugins")
  pure ⟨ucache_s, sconfig_s, uconfig_s, user_dev_dir, user_plugin_dir, site_plugin_dir⟩

/-- An abstract filesystem for `init_dir`: the set of existing directories and
the set of paths whose creation is denied (permission error). -/
structure FS where
  dirs : List String
  denied : List String
  deriving DecidableEq, Repr

/-- `os.makedirs(path)` (no `exist_ok`): raises `FileExistsError` when the
path exists, `PermissionError` when creation is denied, else creates it. -/
def makedirs (fs : FS) (p : String) : Except PyError FS :=
  if p ∈ fs.dirs then Except.error PyError.fileExistsError
  else if p ∈ fs.denied then Except.error PyError.permissionError
  else Except.ok { fs with dirs := p :: fs.dirs }

/-- Embedding of `init_dir` (paths.py lines 17-21): `os.makedirs(path)` with
only `FileExistsError` swallowed; every other exception propagates. -/
def init_dir (fs : FS) (p : String) : Except PyError FS :=
  match makedirs fs p with
  | Except.ok fs' => Except.ok fs'
  | Except.error PyError.fileExistsError => Except.ok fs
  | Except.error e => Except.error e

/-- The worker-thread identities of a call sequence, in call order. -/
def workerIdents : List ThreadCall → List Nat
  | [] => []
  | ThreadCall.main :: cs => workerIdents cs
  | ThreadCall.worker id :: cs => id :: workerIdents cs

/-- The distinct elements of a list, each kept at its first occurrence. -/
def firstOccs : List Nat → List Nat
  | [] => []
  | x :: xs => x :: (firstOccs xs).filter (fun y => y != x)

/-- The position of the first occurrence of `id` in a list, if present. -/
def posOf (id : Nat) : List Nat → Option Nat
  | [] => none
  | x :: xs => if x = id then some 0 else (posOf id xs).map (fun k => k + 1)

/-- The sequence of thread labels produced by a sequence of calls threading the
registry through `threadLabel`. -/
def runLabelsAux (r : ThreadRegistry) : List ThreadCall → List String
  | [] => []
  | c :: cs =>
    let p := threadLabel r c
    p.1 :: runLabelsAux p.2 cs

/-- The registry as it stands at process start (`_thread_count = 0`, empty
`threadIds`). -/
def initialRegistry : ThreadRegistry := ⟨0, []⟩

/-- Thread labels of a call sequence starting from the process-start
registry. -/
def runLabels (calls : List ThreadCall) : List String :=
  runLabelsAux initialRegistry calls

/-- The registry `r` agrees with the history `past` of observed worker
identities: the counter equals the number of distinct identities seen, and
each identity's stored label is its first-occurrence position plus one. -/
def Agrees (past : List Nat) (r : ThreadRegistry) : Prop :=
  r.thread_count = (firstOccs past).length ∧
  ∀ id, r.table.lookup id = (posOf id (firstOccs past)).map (fun k => k + 1)

/-- An empty logging state, as at process start. -/
def initialLogState : LogState := ⟨[], [], initialRegistry⟩

/-- The record that the `i`-th call of a recognized-level sequence emits, given
the thread label it receives. -/
def expectedRecord (c : LMCall) (label : String) : LogRecord :=
  ⟨c.level,
   mkLine (c.timestamp.getD c.now) (resolveLoggerName c.loggername c.callerName)
     ((levels.lookup c.level).getD "") label (joinSpace c.args)⟩

/-- Whether an effect is a tray balloon message displayed with the given
icon class. -/
def usesIcon (i : Icon) (e : Effect) : Bool :=
  match e.op with
  | WidgetOp.trayShowMessage _ _ ic _ => ic == i
  | _ => false

theorem except_bind_ok {ε α β : Type} (a : α) (f : α → Except ε β) :
    (Except.ok (ε := ε) a >>= f) = f a := rfl

theorem except_bind_error {ε α β : Type} (e : ε) (f : α → Except ε β) :
    (Except.error (α := α) e >>= f) = Except.error e := rfl

theorem except_map_error {ε α β : Type} (e : ε) (f : α → β) :
    (Except.error (α := α) e).map f = Except.error e := rfl

theorem except_map_ok {ε α β : Type} (a : α) (f : α → β) :
    (Except.ok (ε := ε) a).map f = Except.ok (f a) := rfl

/-- C2 (code bug): the module body of `paths.py` raises `TypeError` on every
operating system: lines 5-7 rebind `user_cache_dir`, `site_config_dir` and
`user_config_dir` to the strings the imported functions return, and lines
11/13/14 then call those rebound strings again (`'str' object is not
callable`), so no path set is ever produced. -/
theorem paths_module_raises_typeError (ucache sconfig uconfig : String → String)
    (home op_sys : String) :
    paths_module ucache sconfig uconfig home op_sys = Except.error PyError.typeError := by
  by_cases h : op_sys = "Darwin" <;>
    simp [paths_module, callVal, h, except_bind_ok, except_bind_error,
      except_map_error, except_map_ok]

/-- C1 (code bug): `logMessage` called with the unrecognized level 999 raises
`KeyError` and emits no line at all: `stdch.setLevel(999)` is accepted
(CPython's `_checkLevel` admits every int), so the `except ValueError`
escalation branch never runs, and `levels[999]` then raises. The documented
behaviour (escalate to CRITICAL, emit a supplementary warning line, never
raise) does not happen. -/
theorem logMessage_unrecognized_level_raises :
    (logMessage initialLogState ["hello"] 999 none "caller" (some "ts") "now"
      ThreadCall.main).result = Except.error PyError.keyError ∧
    (logMessage initialLogState ["hello"] 999 none "caller" (some "ts") "now"
      ThreadCall.main).state.sink = [] := by
  constructor <;> rfl

/-- C7: `clearMessage()` with no statusbar registered raises `AttributeError`;
with one registered it invokes the statusbar's `clearMessage` method exactly
once. -/
theorem clearMessage_spec :
    (clearMessage false).result = Except.error PyError.attributeError ∧
    (clearMessage false).effects = [] ∧
    (clearMessage true).result = Except.ok () ∧
    (clearMessage true).effects = [⟨WidgetOp.statusClear, CallMode.direct⟩] ∧
    ((clearMessage true).effects.filter
      (fun e => decide (e.op = WidgetOp.statusClear))).length = 1 := by
  refine ⟨rfl, rfl, rfl, rfl, rfl⟩

/-- C8 (code bug): several widget-method invocations are dispatched directly on
the calling thread rather than marshalled onto the GUI thread: `hideBusy` calls
`progressbar.hide()` and `progressbar.setRange(0, 100)` directly, `showMessage`
calls `statusbar.showMessage(...)` directly, and `notifyMessage` calls
`trayicon.show()` directly (only the balloon message and the delayed hide are
marshalled). -/
theorem widget_methods_called_directly :
    hideBusy true = [⟨WidgetOp.progressHide, CallMode.direct⟩,
                     ⟨WidgetOp.progressSetRange 0 100, CallMode.direct⟩] ∧
    showMessageEffects true ["hello"] 5 =
      [⟨WidgetOp.statusShowMessage "hello" 5000, CallMode.direct⟩] ∧
    (notifyMessage initialLogState true ["hi"] 8000 "" INFO "now"
      ThreadCall.main).effects.head? = some ⟨WidgetOp.trayShow, CallMode.direct⟩ ∧
    showProgress true 3 0 100 = [⟨WidgetOp.progressShow, CallMode.marshalled⟩,
      ⟨WidgetOp.progressSetRange 0 100, CallMode.marshalled⟩,
      ⟨WidgetOp.progressSetValue 3, CallMode.marshalled⟩] := by
  refine ⟨rfl, rfl, rfl, rfl⟩

/-- C6: `init_dir` succeeds when the directory already exists; immediately
repeating a successful call on the same path succeeds; any filesystem error
other than already-exists (here: permission denied) propagates uncaught. -/
theorem init_dir_spec (fs : FS) (p : String) :
    (p ∈ fs.dirs → init_dir fs p = Except.ok fs) ∧
    (∀ fs', init_dir fs p = Except.ok fs' → init_dir fs' p = Except.ok fs') ∧
    (p ∉ fs.dirs → p ∈ fs.denied → init_dir fs p = Except.error PyError.permissionError) := by
  refine ⟨?_, ?_, ?_⟩
  · intro hmem
    simp [init_dir, makedirs, hmem]
  · intro fs' h
    by_cases hmem : p ∈ fs.dirs
    · simp [init_dir, makedirs, hmem] at h
      subst h
      simp [init_dir, makedirs, hmem]
    · by_cases hden : p ∈ fs.denied
      · simp [init_dir, makedirs, hmem, hden] at h
      · simp [init_dir, makedirs, hmem, hden] at h
        subst h
        simp [init_dir, makedirs]
  · intro hmem hden
    simp [init_dir, makedirs, hmem, hden]

/-- Witness for C6 at concrete filesystems: an existing directory is a no-op;
a denied creation propagates `PermissionError`. -/
theorem init_dir_spec_witness :
    init_dir ⟨["d"], []⟩ "d" = Except.ok ⟨["d"], []⟩ ∧
    init_dir ⟨["d"], ["x"]⟩ "x" = Except.error PyError.permissionError := by
  exact ⟨(init_dir_spec ⟨["d"], []⟩ "d").1 (by simp),
         (init_dir_spec ⟨["d"], ["x"]⟩ "x").2.2 (by simp) (by simp)⟩

/-- C9: with no tray icon registered, `notifyMessage` never raises, whatever
the integer level: the `ValueError` check sits inside the registered-tray
branch, so the call performs no widget invocation and degrades to the plain
`logMessage(*args)` call at its defaults. -/
theorem notifyMessage_no_tray_never_raises (st : LogState) (args : List String)
    (timeout : Int) (title : String) (level : Int) (now : String) (cur : ThreadCall) :
    (notifyMessage st false args timeout title level now cur).result = Except.ok () ∧
    (notifyMessage st false args timeout title level now cur).effects = [] ∧
    (notifyMessage st false args timeout title level now cur).state =
      (logMessage st args INFO none "notifyMessage" none now cur).state := by
  refine ⟨rfl, rfl, rfl⟩

/-- C4: with a tray icon registered, `notifyMessage` shows the Warning icon
variant exactly once at level WARNING, the Information variant for DEBUG/INFO,
the Critical variant for ERROR/CRITICAL, and raises `ValueError` (before any
widget call) for every other integer level. -/
theorem notifyMessage_icon_mapping (st : LogState) (args : List String) (timeout : Int)
    (title : String) (level : Int) (now : String) (cur : ThreadCall) :
    (level = WARNING →
      ((notifyMessage st true args timeout title level now cur).effects.filter
        (usesIcon Icon.warning)).length = 1) ∧
    (level = DEBUG ∨ level = INFO →
      ((notifyMessage st true args timeout title level now cur).effects.filter
        (usesIcon Icon.information)).length = 1) ∧
    (level = ERROR ∨ level = CRITICAL →
      ((notifyMessage st true args timeout title level now cur).effects.filter
        (usesIcon Icon.critical)).length = 1) ∧
    (level ∉ [DEBUG, INFO, WARNING, ERROR, CRITICAL] →
      (notifyMessage st true args timeout title level now cur).result =
        Except.error PyError.valueError ∧
      (notifyMessage st true args timeout title level now cur).effects = []) := by
  refine ⟨?_, ?_, ?_, ?_⟩
  · rintro rfl
    simp [notifyMessage, usesIcon, DEBUG, INFO, WARNING, ERROR, CRITICAL]
  · rintro (rfl | rfl) <;>
      simp [notifyMessage, usesIcon, DEBUG, INFO, WARNING, ERROR, CRITICAL]
  · rintro (rfl | rfl) <;>
      simp [notifyMessage, usesIcon, DEBUG, INFO, WARNING, ERROR, CRITICAL]
  · intro h
    simp only [DEBUG, INFO, WARNING, ERROR, CRITICAL, List.mem_cons,
      List.not_mem_nil, or_false, not_or] at h
    obtain ⟨h10, h20, h30, h40, h50⟩ := h
    constructor <;>
      simp [notifyMessage, DEBUG, INFO, WARNING, ERROR, CRITICAL,
        h10, h20, h30, h40, h50]

/-- Witness for C4: level WARNING shows the Warning balloon exactly once, and
the unrecognized level 999 raises `ValueError`. -/
theorem notifyMessage_icon_mapping_witness :
    ((notifyMessage initialLogState true ["m"] 8000 "" WARNING "t"
        ThreadCall.main).effects.filter (usesIcon Icon.warning)).length = 1 ∧
    (notifyMessage initialLogState true ["m"] 8000 "" 999 "t"
        ThreadCall.main).result = Except.error PyError.valueError := by
  refine ⟨(notifyMessage_icon_mapping initialLogState ["m"] 8000 "" WARNING "t"
      ThreadCall.main).1 rfl,
    ((notifyMessage_icon_mapping initialLogState ["m"] 8000 "" 999 "t"
      ThreadCall.main).2.2.2 (by decide)).1⟩

theorem logMessage_info_spec (st : LogState) (args : List String) (cname : String)
    (now : String) (cur : ThreadCall) :
    (logMessage st args INFO none cname none now cur).result = Except.ok () ∧
    (logMessage st args INFO none cname none now cur).state.sink =
      st.sink ++ [⟨INFO, mkLine now cname "INFO" (threadLabel st.registry cur).1
        (joinSpace args)⟩] := by
  constructor
  · rfl
  · simp [logMessage, loggerLog, effectiveLevel, setLoggerLevel, resolveLoggerName,
      levels, INFO, DEBUG, List.lookup]

/-- C10: whenever `notifyMessage` completes without raising, the accompanying
log entry is the bare `logMessage(*args)` call: the notification's level,
title and timeout are not forwarded, and exactly one record is emitted, at the
default INFO level, with the parts as its text. -/
theorem notifyMessage_logs_at_info (st : LogState) (tray : Bool) (args : List String)
    (timeout : Int) (title : String) (level : Int) (now : String) (cur : ThreadCall)
    (h : (notifyMessage st tray args timeout title level now cur).result = Except.ok ()) :
    (notifyMessage st tray args timeout title level now cur).state =
      (logMessage st args INFO none "notifyMessage" none now cur).state ∧
    (notifyMessage st tray args timeout title level now cur).state.sink =
      st.sink ++ [⟨INFO, mkLine now "notifyMessage" "INFO"
        (threadLabel st.registry cur).1 (joinSpace args)⟩] := by
  have hsink := (logMessage_info_spec st args "notifyMessage" now cur).2
  cases tray with
  | false => exact ⟨rfl, hsink⟩
  | true =>
    by_cases hmem : level ∈ [DEBUG, INFO, WARNING, ERROR, CRITICAL]
    · simp only [DEBUG, INFO, WARNING, ERROR, CRITICAL, List.mem_cons,
        List.not_mem_nil, or_false] at hmem
      rcases hmem with rfl | rfl | rfl | rfl | rfl <;> exact ⟨rfl, hsink⟩
    · exfalso
      simp only [DEBUG, INFO, WARNING, ERROR, CRITICAL, List.mem_cons,
        List.not_mem_nil, or_false, not_or] at hmem
      obtain ⟨h10, h20, h30, h40, h50⟩ := hmem
      simp [notifyMessage, DEBUG, INFO, WARNING, ERROR, CRITICAL,
        h10, h20, h30, h40, h50] at h

/-- Witness for C10 at a concrete call: `notifyMessage` at level CRITICAL with
no tray registered logs one INFO record of the joined parts. -/
theorem notifyMessage_logs_at_info_witness :
    (notifyMessage initialLogState false ["a", "b"] 8000 "t" CRITICAL "now"
      ThreadCall.main).state.sink =
      [⟨INFO, mkLine "now" "notifyMessage" "INFO" "M" (joinSpace ["a", "b"])⟩] := by
  simpa using (notifyMessage_logs_at_info initialLogState false ["a", "b"] 8000 "t"
    CRITICAL "now" ThreadCall.main rfl).2

theorem runLabelsAux_length (r : ThreadRegistry) (calls : List ThreadCall) :
    (runLabelsAux r calls).length = calls.length := by
  induction calls generalizing r with
  | nil => rfl
  | cons c cs ih => simp [runLabelsAux, ih]

theorem posOf_eq_none_iff (id : Nat) (l : List Nat) : posOf id l = none ↔ id ∉ l := by
  induction l with
  | nil => simp [posOf]
  | cons x xs ih =>
    by_cases hx : x = id
    · subst hx; simp [posOf]
    · simp [posOf, hx, Option.map_eq_none', ih, Ne.symm hx]

theorem posOf_append_of_ne (id x : Nat) (l : List Nat) (h : x ≠ id) :
    posOf id (l ++ [x]) = posOf id l := by
  induction l with
  | nil => simp [posOf, h]
  | cons y ys ih =>
    by_cases hy : y = id
    · simp [posOf, hy]
    · simp [posOf, hy, ih]

theorem posOf_append_of_some (id : Nat) (l m : List Nat) (k : Nat)
    (h : posOf id l = some k) : posOf id (l ++ m) = some k := by
  induction l generalizing k with
  | nil => simp [posOf] at h
  | cons x xs ih =>
    by_cases hx : x = id
    · simp [posOf, hx] at h ⊢; exact h
    · simp only [posOf, hx, if_false, Option.map_eq_some'] at h
      obtain ⟨k', hk', rfl⟩ := h
      simp only [List.cons_append, posOf, hx, if_false, Option.map_eq_some']
      exact ⟨k', ih k' hk', rfl⟩

theorem posOf_append_self (id : Nat) (l : List Nat) (h : id ∉ l) :
    posOf id (l ++ [id]) = some l.length := by
  induction l with
  | nil => simp [posOf]
  | cons x xs ih =>
    have hx : ¬x = id := fun hc => h (by simp [hc])
    have hxs : id ∉ xs := fun hc => h (List.mem_cons_of_mem _ hc)
    simp [posOf, hx, ih hxs]

theorem posOf_inj (l : List Nat) (a b : Nat) (k : Nat)
    (ha : posOf a l = some k) (hb : posOf b l = some k) : a = b := by
  induction l generalizing k with
  | nil => simp [posOf] at ha
  | cons x xs ih =>
    simp only [posOf] at ha hb
    by_cases hxa : x = a <;> by_cases hxb : x = b
    · exact hxa.symm.trans hxb
    · rw [if_pos hxa] at ha
      rw [if_neg hxb, Option.map_eq_some'] at hb
      obtain ⟨k', _, hk'⟩ := hb
      injection ha with ha0
      omega
    · rw [if_pos hxb] at hb
      rw [if_neg hxa, Option.map_eq_some'] at ha
      obtain ⟨k', _, hk'⟩ := ha
      injection hb with hb0
      omega
    · rw [if_neg hxa, Option.map_eq_some'] at ha
      rw [if_neg hxb, Option.map_eq_some'] at hb
      obtain ⟨ka, hka, hka'⟩ := ha
      obtain ⟨kb, hkb, hkb'⟩ := hb
      have hkk : ka = kb := by omega
      subst hkk
      exact ih ka hka hkb

theorem mem_firstOccs (id : Nat) (l : List Nat) : id ∈ firstOccs l ↔ id ∈ l := by
  induction l with
  | nil => simp [firstOccs]
  | cons x xs ih =>
    by_cases hx : id = x
    · subst hx; simp [firstOccs]
    · simp [firstOccs, List.mem_filter, bne_iff_ne, hx, ih]

theorem firstOccs_append_singleton (l : List Nat) (x : Nat) :
    firstOccs (l ++ [x]) = if x ∈ l then firstOccs l else firstOccs l ++ [x] := by
  induction l with
  | nil => simp [firstOccs]
  | cons a as ih =>
    by_cases hxa : x = a
    · subst hxa
      by_cases hx : x ∈ as
      · simp [firstOccs, ih, hx, List.mem_cons]
      · simp [firstOccs, ih, hx, List.filter_append, List.mem_cons]
    · have hne : (x != a) = true := by simp [bne_iff_ne, hxa]
      by_cases hx : x ∈ as
      · simp [firstOccs, ih, hx, List.mem_cons, hxa]
      · simp [firstOccs, ih, hx, List.filter_append, List.mem_cons, hxa, hne]

theorem firstOccs_append (l m : List Nat) :
    ∃ m', firstOccs (l ++ m) = firstOccs l ++ m' := by
  induction l with
  | nil => exact ⟨firstOccs m, by simp [firstOccs]⟩
  | cons a as ih =>
    obtain ⟨m', hm⟩ := ih
    exact ⟨m'.filter (fun y => y != a), by simp [firstOccs, hm, List.filter_append]⟩

theorem workerIdents_append (l m : List ThreadCall) :
    workerIdents (l ++ m) = workerIdents l ++ workerIdents m := by
  induction l with
  | nil => rfl
  | cons c cs ih => cases c <;> simp [workerIdents, ih]

theorem agrees_initial : Agrees [] initialRegistry := by
  constructor
  · rfl
  · intro id; simp [initialRegistry, firstOccs, posOf]

theorem agrees_step (past : List Nat) (r : ThreadRegistry) (id : Nat) (h : Agrees past r) :
    (∃ k, posOf id (firstOccs (past ++ [id])) = some k ∧ (lookupThreadId r id).1 = k + 1) ∧
    Agrees (past ++ [id]) (lookupThreadId r id).2 := by
  obtain ⟨hcount, htab⟩ := h
  cases hlk : r.table.lookup id with
  | some lbl =>
    have h1 : (posOf id (firstOccs past)).map (fun k => k + 1) = some lbl :=
      (htab id).symm.trans hlk
    rw [Option.map_eq_some'] at h1
    obtain ⟨k, hk, hlbl⟩ := h1
    have hmemf : id ∈ firstOccs past := by
      by_contra hc
      rw [← posOf_eq_none_iff] at hc
      rw [hc] at hk
      exact Option.noConfusion hk
    have hmem : id ∈ past := (mem_firstOccs id past).1 hmemf
    have hfo : firstOccs (past ++ [id]) = firstOccs past := by
      rw [firstOccs_append_singleton]; simp [hmem]
    refine ⟨⟨k, by rw [hfo]; exact hk, by simp [lookupThreadId, hlk, hlbl.symm]⟩, ?_, ?_⟩
    · simp [lookupThreadId, hlk, hfo, hcount]
    · intro id'; simp only [lookupThreadId, hlk, hfo]; exact htab id'
  | none =>
    have h1 : (posOf id (firstOccs past)).map (fun k => k + 1) = none :=
      (htab id).symm.trans hlk
    rw [Option.map_eq_none'] at h1
    have hmemf : id ∉ firstOccs past := (posOf_eq_none_iff id _).1 h1
    have hmem : id ∉ past := fun hc => hmemf ((mem_firstOccs id past).2 hc)
    have hfo : firstOccs (past ++ [id]) = firstOccs past ++ [id] := by
      rw [firstOccs_append_singleton]; simp [hmem]
    have hpos : posOf id (firstOccs (past ++ [id])) = some (firstOccs past).length := by
      rw [hfo]; exact posOf_append_self id _ hmemf
    refine ⟨⟨(firstOccs past).length, hpos, by simp [lookupThreadId, hlk, hcount]⟩, ?_, ?_⟩
    · simp [lookupThreadId, hlk, hfo, hcount]
    · intro id'
      by_cases hid : id' = id
      · subst hid
        simp only [lookupThreadId, hlk, hpos]
        simp [List.lookup, hcount]
      · simp only [lookupThreadId, hlk]
        have hbeq : (id' == id) = false := by
          simp [hid]
        have hlook : (((id, r.thread_count + 1) :: r.table).lookup id') = r.table.lookup id' := by
          simp [List.lookup, hbeq]
        rw [hlook, hfo, posOf_append_of_ne id' id _ (fun hc => hid hc.symm)]
        exact htab id'

theorem runLabelsAux_posOf (calls : List ThreadCall) :
    ∀ (past : List Nat) (r : ThreadRegistry), Agrees past r → ∀ i : Nat,
      (calls[i]? = some ThreadCall.main → (runLabelsAux r calls)[i]? = some "M") ∧
      (∀ id, calls[i]? = some (ThreadCall.worker id) →
        ∃ k, posOf id (firstOccs (past ++ workerIdents (calls.take (i + 1)))) = some k ∧
             (runLabelsAux r calls)[i]? = some (toString (k + 1))) := by
  induction calls with
  | nil =>
    intro past r _ i
    constructor
    · intro h; simp at h
    · intro id h; simp at h
  | cons c cs ih =>
    intro past r hag i
    cases i with
    | zero =>
      constructor
      · intro h
        simp only [List.getElem?_cons_zero, Option.some.injEq] at h
        subst h
        simp [runLabelsAux, threadLabel]
      · intro id h
        simp only [List.getElem?_cons_zero, Option.some.injEq] at h
        subst h
        obtain ⟨⟨k, hk, hl⟩, _⟩ := agrees_step past r id hag
        refine ⟨k, ?_, ?_⟩
        · simpa [workerIdents] using hk
        · simp [runLabelsAux, threadLabel, hl]
    | succ n =>
      cases c with
      | main =>
        have h2 := ih past r hag n
        constructor
        · intro h
          simp only [List.getElem?_cons_succ] at h
          have hl := h2.1 h
          simpa [runLabelsAux, threadLabel] using hl
        · intro id h
          simp only [List.getElem?_cons_succ] at h
          obtain ⟨k, hk, hl⟩ := h2.2 id h
          refine ⟨k, ?_, ?_⟩
          · simpa [workerIdents, List.take_succ_cons] using hk
          · simpa [runLabelsAux, threadLabel] using hl
      | worker wid =>
        obtain ⟨_, hag'⟩ := agrees_step past r wid hag
        have h2 := ih (past ++ [wid]) (lookupThreadId r wid).2 hag' n
        constructor
        · intro h
          simp only [List.getElem?_cons_succ] at h
          have hl := h2.1 h
          simpa [runLabelsAux, threadLabel] using hl
        · intro id h
          simp only [List.getElem?_cons_succ] at h
          obtain ⟨k, hk, hl⟩ := h2.2 id h
          refine ⟨k, ?_, ?_⟩
          · simpa [workerIdents, List.take_succ_cons, List.append_assoc] using hk
          · simpa [runLabelsAux, threadLabel] using hl

theorem take_extend {α : Type} (l : List α) (i j : Nat) (h : i ≤ j) :
    ∃ rest, l.take j = l.take i ++ rest := by
  refine ⟨(l.take j).drop i, ?_⟩
  conv_lhs => rw [← List.take_append_drop i (l.take j)]
  rw [List.take_take, Nat.min_eq_left h]

theorem posOf_take_extend (calls : List ThreadCall) (i j : Nat) (hij : i ≤ j)
    (id k : Nat)
    (h : posOf id (firstOccs (workerIdents (calls.take (i + 1)))) = some k) :
    posOf id (firstOccs (workerIdents (calls.take (j + 1)))) = some k := by
  obtain ⟨rest, hr⟩ := take_extend calls (i + 1) (j + 1) (by omega)
  rw [hr, workerIdents_append]
  obtain ⟨m', hm⟩ := firstOccs_append (workerIdents (calls.take (i + 1))) (workerIdents rest)
  rw [hm]
  exact posOf_append_of_some id _ m' k h

/-- C5: thread-label assignment in `logMessage`. Over any run (sequence of
calls), (1) a call from the designated main thread is labelled with the fixed
sentinel `"M"` regardless of position; (2) a call from a worker thread is
labelled with the string of `k + 1` where `k` is the first-occurrence position
of that thread's identity among the worker identities observed so far; (3) at
an identity's first observation, the integer label assigned is the number of
distinct worker identities previously observed plus one, so labels are
assigned first-come, monotonically increasing from 1; (4) the label of an
identity is stable across all of its later calls; (5) two distinct worker
identities receive distinct integer labels. -/
theorem logMessage_thread_labels (calls : List ThreadCall) (i j : Nat) :
    (calls[i]? = some ThreadCall.main → (runLabels calls)[i]? = some "M") ∧
    (∀ id, calls[i]? = some (ThreadCall.worker id) →
      ∃ k, posOf id (firstOccs (workerIdents (calls.take (i + 1)))) = some k ∧
           (runLabels calls)[i]? = some (toString (k + 1))) ∧
    (∀ id, calls[i]? = some (ThreadCall.worker id) →
      id ∉ workerIdents (calls.take i) →
      (runLabels calls)[i]? =
        some (toString ((firstOccs (workerIdents (calls.take i))).length + 1))) ∧
    (∀ id, i ≤ j → calls[i]? = some (ThreadCall.worker id) →
      calls[j]? = some (ThreadCall.worker id) →
      (runLabels calls)[i]? = (runLabels calls)[j]?) ∧
    (∀ id id', i ≤ j → calls[i]? = some (ThreadCall.worker id) →
      calls[j]? = some (ThreadCall.worker id') → id ≠ id' →
      ∃ k k', posOf id (firstOccs (workerIdents (calls.take (j + 1)))) = some k ∧
        posOf id' (firstOccs (workerIdents (calls.take (j + 1)))) = some k' ∧
        k ≠ k' ∧
        (runLabels calls)[i]? = some (toString (k + 1)) ∧
        (runLabels calls)[j]? = some (toString (k' + 1))) := by
  have hspec := runLabelsAux_posOf calls [] initialRegistry agrees_initial
  have hspec' : ∀ i : Nat,
      (calls[i]? = some ThreadCall.main → (runLabels calls)[i]? = some "M") ∧
      (∀ id, calls[i]? = some (ThreadCall.worker id) →
        ∃ k, posOf id (firstOccs (workerIdents (calls.take (i + 1)))) = some k ∧
             (runLabels calls)[i]? = some (toString (k + 1))) := by
    intro i
    have h := hspec i
    simpa [runLabels] using h
  refine ⟨(hspec' i).1, (hspec' i).2, ?_, ?_, ?_⟩
  · -- first observation: the assigned position is the count of previously
    -- observed distinct identities
    intro id hi hnew
    obtain ⟨k, hk, hl⟩ := (hspec' i).2 id hi
    have htake : calls.take (i + 1) = calls.take i ++ [ThreadCall.worker id] := by
      rw [List.take_succ, hi]
      rfl
    have hword : workerIdents (calls.take (i + 1)) =
        workerIdents (calls.take i) ++ [id] := by
      rw [htake, workerIdents_append]
      rfl
    have hnewf : id ∉ firstOccs (workerIdents (calls.take i)) :=
      fun hc => hnew ((mem_firstOccs _ _).1 hc)
    have hfo : firstOccs (workerIdents (calls.take (i + 1))) =
        firstOccs (workerIdents (calls.take i)) ++ [id] := by
      rw [hword, firstOccs_append_singleton]
      simp [hnew]
    have hpos : posOf id (firstOccs (workerIdents (calls.take (i + 1)))) =
        some (firstOccs (workerIdents (calls.take i))).length := by
      rw [hfo]
      exact posOf_append_self id _ hnewf
    rw [hpos] at hk
    injection hk with hk
    rw [hl, hk]
  · -- stability
    intro id hij hi hj
    obtain ⟨ki, hki, hli⟩ := (hspec' i).2 id hi
    obtain ⟨kj, hkj, hlj⟩ := (hspec' j).2 id hj
    have hki' := posOf_take_extend calls i j hij id ki hki
    rw [hki'] at hkj
    injection hkj with hkj
    rw [hli, hlj, hkj]
  · -- distinctness of the integer labels
    intro id id' hij hi hj hne
    obtain ⟨ki, hki, hli⟩ := (hspec' i).2 id hi
    obtain ⟨kj, hkj, hlj⟩ := (hspec' j).2 id' hj
    have hki' := posOf_take_extend calls i j hij id ki hki
    refine ⟨ki, kj, hki', hkj, ?_, hli, hlj⟩
    intro hc
    subst hc
    exact hne (posOf_inj _ id id' ki hki' hkj)

/-- Witness for C5 on the run `[worker 100, main, worker 200, worker 100]`:
the main thread receives the sentinel, and the worker identity 100 receives
the same label at its first and second calls. -/
theorem logMessage_thread_labels_witness :
    (runLabels [ThreadCall.worker 100, ThreadCall.main, ThreadCall.worker 200,
      ThreadCall.worker 100])[1]? = some "M" ∧
    (runLabels [ThreadCall.worker 100, ThreadCall.main, ThreadCall.worker 200,
      ThreadCall.worker 100])[0]? =
      (runLabels [ThreadCall.worker 100, ThreadCall.main, ThreadCall.worker 200,
        ThreadCall.worker 100])[3]? := by
  refine ⟨(logMessage_thread_labels [ThreadCall.worker 100, ThreadCall.main,
      ThreadCall.worker 200, ThreadCall.worker 100] 1 1).1 rfl,
    (logMessage_thread_labels [ThreadCall.worker 100, ThreadCall.main,
      ThreadCall.worker 200, ThreadCall.worker 100] 0 3).2.2.2.1 100 (by omega) rfl rfl⟩

theorem levels_lookup_ge (level : Int) (s : String) (h : levels.lookup level = some s) :
    DEBUG ≤ level := by
  simp only [levels, List.lookup] at h
  repeat' split at h
  all_goals
    first
      | (rename_i heq
         rw [beq_iff_eq] at heq
         subst heq
         decide)
      | simp at h

theorem logMessage_recognized_spec (st : LogState) (args : List String) (level : Int)
    (loggername : Option String) (callerName : String) (timestamp : Option String)
    (now : String) (cur : ThreadCall) (lname : String)
    (hl : levels.lookup level = some lname) :
    (logMessage st args level loggername callerName timestamp now cur).result =
      Except.ok () ∧
    (logMessage st args level loggername callerName timestamp now cur).state.sink =
      st.sink ++ [⟨level, mkLine (timestamp.getD now)
        (resolveLoggerName loggername callerName) lname
        (threadLabel st.registry cur).1 (joinSpace args)⟩] ∧
    (logMessage st args level loggername callerName timestamp now cur).state.registry =
      (threadLabel st.registry cur).2 := by
  have hge : DEBUG ≤ level := levels_lookup_ge level lname hl
  unfold logMessage
  rw [hl]
  refine ⟨rfl, ?_, ?_⟩ <;>
    simp [loggerLog, effectiveLevel, setLoggerLevel, List.lookup, hge]

theorem runLog_spec (calls : List LMCall) : ∀ st : LogState,
    (∀ c ∈ calls, (levels.lookup c.level).isSome = true) →
    (runLog st calls).result = Except.ok () ∧
    (runLog st calls).state.sink =
      st.sink ++ List.zipWith expectedRecord calls
        (runLabelsAux st.registry (calls.map (fun c => c.thread))) := by
  induction calls with
  | nil =>
    intro st _
    exact ⟨rfl, by simp [runLog, runLabelsAux]⟩
  | cons c cs ih =>
    intro st h
    have hc : (levels.lookup c.level).isSome = true := h c (List.mem_cons_self c cs)
    obtain ⟨lname, hl⟩ := Option.isSome_iff_exists.mp hc
    obtain ⟨hres, hsink, hreg⟩ := logMessage_recognized_spec st c.args c.level c.loggername
      c.callerName c.timestamp c.now c.thread lname hl
    have hcs : ∀ d ∈ cs, (levels.lookup d.level).isSome = true :=
      fun d hd => h d (List.mem_cons_of_mem c hd)
    set r := logMessage st c.args c.level c.loggername c.callerName c.timestamp c.now
      c.thread with hr
    obtain ⟨ihres, ihsink⟩ := ih r.state hcs
    have hrun : runLog st (c :: cs) = runLog r.state cs := by
      simp only [runLog, ← hr, hres]
    rw [hrun]
    refine ⟨ihres, ?_⟩
    rw [ihsink, hsink, hreg]
    have hexp : expectedRecord c (threadLabel st.registry c.thread).1 =
        ⟨c.level, mkLine (c.timestamp.getD c.now)
          (resolveLoggerName c.loggername c.callerName) lname
          (threadLabel st.registry c.thread).1 (joinSpace c.args)⟩ := by
      simp [expectedRecord, hl]
    simp [runLabelsAux, hexp]

/-- C3: a sequence of `logMessage` calls at recognized levels never raises,
appends exactly one record to the sink per call (line count equals call
count), and each appended line is
`"{timestamp} - {loggername} - {levelname} - {thread} - {s}"` with `s` the
parts joined by single spaces (`expectedRecord` spells out that format; the
thread labels are the ones `threadLabel` assigns along the run). -/
theorem runLog_line_count_format (st : LogState) (calls : List LMCall)
    (h : ∀ c ∈ calls, (levels.lookup c.level).isSome = true) :
    (runLog st calls).result = Except.ok () ∧
    (runLog st calls).state.sink =
      st.sink ++ List.zipWith expectedRecord calls
        (runLabelsAux st.registry (calls.map (fun c => c.thread))) ∧
    ((runLog st calls).state.sink).length = st.sink.length + calls.length := by
  obtain ⟨hres, hsink⟩ := runLog_spec calls st h
  refine ⟨hres, hsink, ?_⟩
  rw [hsink]
  simp [List.length_zipWith, runLabelsAux_length]

/-- C3 counterexample: the claim quantified over every call sequence fails at a
single call with the unrecognized level 999 — the call raises `KeyError`
(see C1) and produces zero sink lines, so the line count (0) differs from the
call count (1). -/
theorem runLog_line_count_counterexample :
    ((runLog initialLogState
      [⟨["x"], 999, none, "f", none, "t", ThreadCall.main⟩]).state.sink).length = 0 ∧
    ([⟨["x"], 999, none, "f", none, "t", ThreadCall.main⟩] : List LMCall).length = 1 ∧
    (runLog initialLogState
      [⟨["x"], 999, none, "f", none, "t", ThreadCall.main⟩]).result =
      Except.error PyError.keyError := by
  refine ⟨rfl, rfl, rfl⟩

/-- Witness for C3: two recognized-level calls (one from the main thread, one
from worker 7) produce exactly two sink lines. -/
theorem runLog_line_count_format_witness :
    ((runLog initialLogState
      [⟨["a", "b"], INFO, none, "f", none, "t1", ThreadCall.main⟩,
       ⟨["c"], ERROR, some "chan", "g", some "t2", "t3",
        ThreadCall.worker 7⟩]).state.sink).length = 2 := by
  simpa using (runLog_line_count_format initialLogState
    [⟨["a", "b"], INFO, none, "f", none, "t1", ThreadCall.main⟩,
     ⟨["c"], ERROR, some "chan", "g", some "t2", "t3",
      ThreadCall.worker 7⟩] (by decide)).2.2
